import Mathlib

/-
Verification development for the CSV-to-sqlite ingestion repository.

The Python sources are shallowly embedded:
  src/src/__main__.py            students_str_map
  src/src/database/table.py      DBTable (modify_index, csv_to_dataframe, dataframe_to_csv)
  src/src/database/database.py   Database (add_table, add_table_to_database, table_names),
                                 DatabaseGenerator.create_from_dict
  src/src/database/import_csv.py gather_csv_paths

A pandas DataFrame is modelled by its index (name and values) and its named
columns.  Python attribute dictionaries are modelled as association lists, so
that setattr on a name colliding with a built-in field is representable;
object identity of Database instances is modelled with an allocation id.
Fallible operations return Except String.
-/

/-- Cell values appearing in a dataframe: integers (synthetic indices,
inferred numerics) or raw strings (CSV cells). -/
inductive Val where
  | int (n : Int)
  | str (s : String)
deriving DecidableEq, Repr

/-- Result of the normalisation map `students_str_map`: an integer code, the
value passed through unchanged, or Python's implicit None (the match arm for
"OTHER" has no final else). -/
inductive MapResult where
  | int (n : Int)
  | str (s : String)
  | none
deriving DecidableEq, Repr

/-- Python `str.upper()`: uppercase each character (the data is ASCII). -/
def pyUpper (s : String) : String := String.mk (s.data.map Char.toUpper)

/-- Split a character list on a separator character; mirrors Python
`str.split(sep)`: "a_b_c" gives three parts, "" gives one empty part. -/
def splitChars (sep : Char) : List Char → List (List Char)
  | [] => [[]]
  | c :: cs =>
    if c = sep then [] :: splitChars sep cs
    else
      match splitChars sep cs with
      | [] => [[c]]
      | g :: gs => (c :: g) :: gs

/-- Python `s.split(sep)` for a one-character separator. -/
def pySplit (sep : Char) (s : String) : List String :=
  (splitChars sep s.data).map String.mk

/-- Python `s.startswith(p)`. -/
def strStartsWith (s p : String) : Bool := List.isPrefixOf p.data s.data

/-- Python `s.endswith(p)`. -/
def strEndsWith (s p : String) : Bool := List.isSuffixOf p.data s.data

/-- Whether the string has an occurrence of the character. -/
def strContains (s : String) (c : Char) : Bool := s.data.contains c

/-- Drop the last n characters (`Path(p).stem` for a name ending ".csv"). -/
def strDropRight (s : String) (n : Nat) : String :=
  String.mk (s.data.take (s.data.length - n))

/-- Embedding of `students_str_map` from src/src/__main__.py.  The Python
function first passes non-string values through unchanged; the embedding
covers the string domain.  `match value.upper()` with string cases becomes a
match on `pyUpper value`; `column in {"Mjob", "Fjob"}` becomes a decidable
disjunction. -/
def students_str_map (value : String) (column : String) : MapResult :=
  match pyUpper value with
  | "YES" => .int 1
  | "NO" => .int 0
  | "OTHER" =>
    if column = "reason" then .int 3
    else if column = "guardian" then .int 2
    else if column = "Mjob" ∨ column = "Fjob" then .int 4
    else .none
  | "GP" => .int 0
  | "MS" => .int 1
  | "F" => .int 0
  | "M" => .int 1
  | "U" => .int 0
  | "R" => .int 1
  | "LE3" => .int 0
  | "GT3" => .int 1
  | "T" => .int 0
  | "A" => .int 1
  | "TEACHER" => .int 0
  | "HEALTH" => .int 1
  | "SERVICES" => .int 2
  | "AT_HOME" => .int 3
  | "HOME" => .int 0
  | "REPUTATION" => .int 1
  | "COURSE" => .int 2
  | "MOTHER" => .int 0
  | "FATHER" => .int 1
  | _ => .str value

/-- The categorical keys recognised by `students_str_map` (uppercase). -/
def recognizedKeys : List String :=
  ["YES", "NO", "OTHER", "GP", "MS", "F", "M", "U", "R", "LE3", "GT3", "T",
   "A", "TEACHER", "HEALTH", "SERVICES", "AT_HOME", "HOME", "REPUTATION",
   "COURSE", "MOTHER", "FATHER"]

/-- A pandas DataFrame, reduced to what the repository manipulates: the index
(its optional name and its values) and the ordered, named columns. -/
structure DataFrame where
  indexName : Option String
  indexVals : List Val
  cols : List (String × List Val)
deriving DecidableEq, Repr

/-- Python `len(df)`: the number of rows, i.e. the length of the index. -/
def DataFrame.nrows (df : DataFrame) : Nat := df.indexVals.length

/-- Insert an element at a position of a list (pandas `DataFrame.insert`
column placement; the source only uses position 0). -/
def insertAt {α : Type} : Nat → α → List α → List α
  | 0, a, l => a :: l
  | _ + 1, a, [] => [a]
  | n + 1, a, x :: xs => x :: insertAt n a xs

/-- pandas `DataFrame.insert(loc, column, value, allow_duplicates=False)`:
fails if the column name already exists or the value length does not match
the number of rows; otherwise places the new column at `loc`. -/
def DataFrame.insert (df : DataFrame) (loc : Nat) (lbl : String)
    (vals : List Val) : Except String DataFrame :=
  if (df.cols.map Prod.fst).contains lbl then
    .error "ValueError: cannot insert, column already in frame"
  else if vals.length = df.nrows then
    .ok { df with cols := insertAt loc (lbl, vals) df.cols }
  else
    .error "ValueError: length of values does not match length of index"

/-- pandas `DataFrame.set_index(lbl, inplace=True)`: the named column becomes
the index (its values become the index values, its name the index name) and
leaves the regular column set; the previous index is discarded.  Fails with
KeyError when no column has that name. -/
def DataFrame.set_index (df : DataFrame) (lbl : String) : Except String DataFrame :=
  match df.cols.find? (fun c => c.1 == lbl) with
  | some c =>
    .ok { indexName := some lbl, indexVals := c.2,
          cols := df.cols.filter (fun c => !(c.1 == lbl)) }
  | none => .error "KeyError"

/-- The synthetic index `list(range(len(df)))`. -/
def intRange (n : Nat) : List Val := (List.range n).map fun i => Val.int (Int.ofNat i)

/-- Embedding of `DBTable` from src/src/database/table.py.  `index_label` is
a dataclass field with `init=False`: it is unset until assigned, so it is an
Option and reading it while unset is an AttributeError.  `database` is the
back-reference to the owning Database, modelled by the Database's allocation
id (Python object identity); `index` is the optional pre-assigned index. -/
structure DBTable where
  name : String
  db_name : String
  index_label : Option String
  csv_path : String
  dataframe : DataFrame
  database : Option Nat
  index : Option (List Val)
deriving DecidableEq, Repr

/-- Embedding of `DBTable.modify_index`.  Mirrors the Python body: if the
label names an existing column, `set_index` it; otherwise synthesize
`range(len(df))` when no index was pre-assigned (the Python elif condition
`self.index_label not in columns` is already true in this branch), then
`insert(0, label, index)` and `set_index`.  The final match arm for a missing
index cannot be reached: the elif just assigned one. -/
def DBTable.modify_index (t : DBTable) : Except String DBTable :=
  match t.index_label with
  | none => .error "AttributeError: index_label is not set"
  | some lbl =>
    if (t.dataframe.cols.map Prod.fst).contains lbl then
      match t.dataframe.set_index lbl with
      | .ok df => .ok { t with dataframe := df }
      | .error e => .error e
    else
      let t1 := if t.index = none
                then { t with index := some (intRange t.dataframe.nrows) }
                else t
      match t1.index with
      | none => .error "unreachable: index was just assigned"
      | some idx =>
        match t1.dataframe.insert 0 lbl idx with
        | .error e => .error e
        | .ok df2 =>
          match df2.set_index lbl with
          | .ok df3 => .ok { t1 with dataframe := df3 }
          | .error e => .error e

/-- A CSV file's contents at field granularity: the header row and the data
rows (";"-separated fields already split). -/
structure Csv where
  header : List String
  rows : List (List String)
deriving DecidableEq, Repr

/-- pandas names a header field that is empty `Unnamed: {position}`. -/
def renameUnnamed (h : List String) : List String :=
  h.mapIdx fun i s => if s = "" then "Unnamed: " ++ toString i else s

/-- pandas `read_csv`: the header row gives the column names (empty names
become `Unnamed: {i}`), the data rows give the columns, and the index is a
fresh unnamed RangeIndex.  A ragged file is a parse error (`none`). -/
def read_csv (f : Csv) : Option DataFrame :=
  if f.rows.all (fun r => r.length = f.header.length) then
    some { indexName := Option.none
           indexVals := intRange f.rows.length
           cols := (renameUnnamed f.header).mapIdx
             fun i nm => (nm, f.rows.map fun r => Val.str (r.getD i "")) }
  else Option.none

/-- pandas `DataFrame.to_csv` with the default `index=True`: the first header
field is the index name (empty when the index is unnamed), each data row
starts with the index value. -/
def valToString : Val → String
  | .int n => toString n
  | .str s => s

/-- Serialise a dataframe back to CSV fields (pandas `to_csv`). -/
def to_csv (df : DataFrame) : Csv :=
  { header := (df.indexName.getD "") :: df.cols.map Prod.fst
    rows := (List.range df.nrows).map fun j =>
      valToString (df.indexVals.getD j (Val.str "")) ::
        df.cols.map fun c => valToString (c.2.getD j (Val.str "")) }

/-- Embedding of `DBTable.csv_to_dataframe`: re-reads the given CSV contents
into the table's dataframe; a malformed file is a fatal parse error. -/
def DBTable.csv_to_dataframe (t : DBTable) (contents : Csv) : Except String DBTable :=
  match read_csv contents with
  | some df => .ok { t with dataframe := df }
  | Option.none => .error "ParserError"

/-- Embedding of `DBTable.dataframe_to_csv`: serialises the table's dataframe
(index included) to the CSV file at its `csv_path`. -/
def DBTable.dataframe_to_csv (t : DBTable) : Csv := to_csv t.dataframe

/-- Association-list lookup modelling Python attribute/dict access (first
binding for a key wins; keys are kept unique by `aupsert`). -/
def alookup {α : Type} : List (String × α) → String → Option α
  | [], _ => Option.none
  | (k', v) :: rest, k => if k' = k then some v else alookup rest k

/-- Association-list update modelling Python `setattr` / dict assignment: an
existing key keeps its position and gets the new value, a new key is appended
(Python dicts preserve insertion order). -/
def aupsert {α : Type} : List (String × α) → String → α → List (String × α)
  | [], k, v => [(k, v)]
  | (k', v') :: rest, k, v =>
    if k' = k then (k, v) :: rest else (k', v') :: aupsert rest k v

/-- A Python attribute value of a Database object: the built-in fields set in
`__init__` plus table objects bound by `add_table`'s setattr. -/
inductive PyAttr where
  | str (s : String)
  | tableList (ts : List DBTable)
  | table (t : DBTable)
  | conn (path : String)
  | cursor
deriving DecidableEq, Repr

/-- One table as written into the sqlite store by `DataFrame.to_sql`: the
tabular data keyed by the designated index column. -/
structure StoredTable where
  index_label : String
  dataframe : DataFrame
deriving DecidableEq, Repr

/-- Embedding of `Database` from src/src/database/database.py.  `attrs` is
the object's attribute dictionary (so `setattr(self, table.name, table)` can
shadow built-in fields, as the source allows); `store` is the contents of the
`{name}.db` sqlite file; `log` collects the ic() diagnostics; `oid` models
the object's identity (allocation order). -/
structure Database where
  oid : Nat
  attrs : List (String × PyAttr)
  store : List (String × StoredTable)
  log : List String
deriving DecidableEq, Repr

/-- Embedding of `Database.__init__`: sets name, the empty table list, the
storage folder, the `{name}.db` path, and connects (connection and cursor);
`if_exists` defaults to "replace" at the call sites that omit it. -/
def Database.init (name : String) (folder : String) (if_exists : String)
    (oid : Nat) : Database :=
  { oid := oid
    attrs := [("name", .str name), ("tables", .tableList []),
              ("folder", .str folder),
              ("path", .str (folder ++ "/" ++ name ++ ".db")),
              ("connection", .conn (folder ++ "/" ++ name ++ ".db")),
              ("cursor", .cursor), ("if_exists", .str if_exists)]
    store := []
    log := [] }

/-- Reading `self.tables` (the owned collection); empty if the attribute was
shadowed by a table object. -/
def Database.tablesList (db : Database) : List DBTable :=
  match alookup db.attrs "tables" with
  | some (.tableList ts) => ts
  | _ => []

/-- Embedding of the `Database.table_names` property:
`[table.name for table in self.tables]`. -/
def Database.table_names (db : Database) : List String :=
  db.tablesList.map (fun t => t.name)

/-- Embedding of `Database.add_table` followed by its call to
`add_table_to_database`.  In source order: set the table's back-reference and
db_name, append the table to `self.tables`, log via ic() when `self` already
has an attribute of the table's name, bind the table as an attribute of that
name, then write the table's dataframe into the sqlite store under the
table's name with `if_exists=self.if_exists` and the table's `index_label` as
the key column.  Reading an unset `index_label` is an AttributeError; the
model rejects attribute states whose values no longer fit the protocol's
types (a shadowed "name" or "if_exists"), where Python would propagate
ill-typed values instead.  Only the `if_exists="replace"` mode used by this
repository is modelled.  Returns the updated database and table. -/
def Database.add_table (db : Database) (t : DBTable) :
    Except String (Database × DBTable) :=
  match alookup db.attrs "name" with
  | some (.str nm) =>
    let t1 := { t with database := some db.oid, db_name := nm }
    match alookup db.attrs "tables" with
    | some (.tableList ts) =>
      let attrs1 := aupsert db.attrs "tables" (.tableList (ts ++ [t1]))
      let log1 := if (alookup attrs1 t1.name).isSome
                  then db.log ++ ["changing " ++ t1.name ++ " to new value."]
                  else db.log
      let attrs2 := aupsert attrs1 t1.name (.table t1)
      match t1.index_label with
      | some lbl =>
        match alookup attrs2 "if_exists" with
        | some (.str ie) =>
          if ie = "replace" then
            .ok ({ db with
                    attrs := attrs2
                    log := log1
                    store := aupsert db.store t1.name
                      { index_label := lbl, dataframe := t1.dataframe } }, t1)
          else .error "model: if_exists mode other than replace not modelled"
        | _ => .error "TypeError: if_exists attribute is not a string"
      | Option.none => .error "AttributeError: index_label is not set"
    | _ => .error "AttributeError: tables attribute is not a list"
  | _ => .error "TypeError: name attribute is not a string"

/-- Parent directory of a path, as `Path(p).parent` (used for the folder the
generator derives from a member table's csv path). -/
def parentDir (p : String) : String :=
  String.intercalate "/" ((pySplit '/' p).dropLast)

/-- The attribute names `Database.__init__` installs; a table whose name
collides with one of them shadows that internal field when registered. -/
def builtinAttrs : List String :=
  ["name", "tables", "folder", "path", "connection", "cursor", "if_exists"]

/-- The loop of `DatabaseGenerator.create_from_dict` over the dict's entries,
threading the name-to-Database mapping being built, the processed tables, and
the allocation counter.  `lastPath` is the csv path of the dict's last entry:
`db_dict.copy().popitem()` pops the last item of the (structurally
unchanging) dict, and its csv_path is never mutated.  For a known db_name the
existing Database is reused; otherwise one is constructed with the folder
derived from `lastPath` and recorded in the mapping.  `table.add()` then
delegates to `database.add_table(table)` on the table's back-referenced
database, mutating that same Database object, so the mapping entry holds the
updated Database.  `genStep` is one iteration of the loop over one dict
entry. -/
def genStep (lastPath : Option String) (k : String) (t : DBTable)
    (ret : List (String × Database)) (outs : List (String × DBTable)) (c : Nat) :
    Except String (List (String × Database) × List (String × DBTable) × Nat) :=
  match alookup ret t.db_name with
  | some db0 =>
    match db0.add_table { t with database := some db0.oid } with
    | .error e => .error e
    | .ok (db', t2) => .ok (aupsert ret t.db_name db', outs ++ [(k, t2)], c)
  | Option.none =>
    match lastPath with
    | Option.none => .error "KeyError: popitem from an empty dictionary"
    | some lp =>
      let db := Database.init t.db_name (parentDir lp) "replace" c
      match db.add_table { t with database := some db.oid } with
      | .error e => .error e
      | .ok (db', t2) => .ok (aupsert ret t.db_name db', outs ++ [(k, t2)], c + 1)

/-- The iteration of `genStep` over the dict's entries in order. -/
def genLoop (lastPath : Option String) :
    List (String × DBTable) → List (String × Database) →
    List (String × DBTable) → Nat →
    Except String (List (String × Database) × List (String × DBTable) × Nat)
  | [], ret, outs, c => .ok (ret, outs, c)
  | (k, t) :: rest, ret, outs, c =>
    match genStep lastPath k t ret outs c with
    | .error e => .error e
    | .ok (ret1, outs1, c1) => genLoop lastPath rest ret1 outs1 c1

/-- Embedding of `DatabaseGenerator.create_from_dict`: iterates the input
dict's tables in order and returns the mapping from database name to
Database, together with the tables as mutated by registration. -/
def DatabaseGenerator.create_from_dict (db_dict : List (String × DBTable)) :
    Except String (List (String × Database) × List (String × DBTable)) :=
  match genLoop (db_dict.getLast?.map (fun p => p.2.csv_path)) db_dict [] [] 0 with
  | .ok (ret, outs, _) => .ok (ret, outs)
  | .error e => .error e

/-- A file of the scanned directory: its name and its CSV contents. -/
structure CsvFile where
  name : String
  contents : Csv
deriving DecidableEq, Repr

/-- glob `*_*.csv`: the name ends in ".csv" with an underscore somewhere
before that suffix; glob's leading `*` does not match dotfiles. -/
def globMatch (n : String) : Bool :=
  !(strStartsWith n ".") && strEndsWith n ".csv" && strContains (strDropRight n 4) '_'

/-- One iteration of `gather_csv_paths`: for a glob-matched file, take the
stem (`Path(p).stem`, the name without the ".csv" suffix), split it on every
underscore and unpack into exactly (database_name, table_name) — any other
number of parts raises ValueError — then construct the DBTable, whose
`__post_init__` loads the CSV (a parse failure is fatal), and store it in the
dict under the full stem.  Non-matching files are skipped. -/
def gatherStep (folder : String) (acc : Except String (List (String × DBTable)))
    (f : CsvFile) : Except String (List (String × DBTable)) :=
  acc.bind fun d =>
    if globMatch f.name then
      let total_name := strDropRight f.name 4
      match pySplit '_' total_name with
      | [database_name, table_name] =>
        match read_csv f.contents with
        | some df =>
          .ok (aupsert d total_name
            { name := table_name, db_name := database_name,
              index_label := Option.none,
              csv_path := folder ++ "/" ++ f.name, dataframe := df,
              database := Option.none, index := Option.none })
        | Option.none => .error "ParserError"
      | _ => .error "ValueError: not exactly two values to unpack"
    else .ok d

/-- Embedding of `gather_csv_paths` from src/src/database/import_csv.py over
the files of the data folder. -/
def gather_csv_paths (folder : String) (files : List CsvFile) :
    Except String (List (String × DBTable)) :=
  files.foldl (gatherStep folder) (.ok [])

/-- An empty dataframe (no rows, no columns). -/
def dfEmpty : DataFrame := ⟨Option.none, [], []⟩

/-- A one-cell CSV file body. -/
def sampleCsv : Csv := ⟨["A"], [["1"]]⟩

/-- Result of `read_csv sampleCsv`. -/
def dfSampleA : DataFrame := ⟨Option.none, [Val.int 0], [("A", [Val.str "1"])]⟩

/-- A second one-cell CSV file body. -/
def csvB : Csv := ⟨["B"], [["2"]]⟩

/-- Result of `read_csv csvB`. -/
def dfCsvB : DataFrame := ⟨Option.none, [Val.int 0], [("B", [Val.str "2"])]⟩

/-- A table whose index_label "id" names an existing column holding the value
5 (not equal to the synthetic range): input of the C1 counterexample. -/
def tC1cx : DBTable :=
  ⟨"t", "d", some "id", "p",
   ⟨Option.none, [Val.int 0], [("id", [Val.int 5]), ("x", [Val.int 7])]⟩,
   Option.none, Option.none⟩

/-- The table `tC1cx` after one `modify_index`: the id column became the index. -/
def tC1cx_once : DBTable :=
  { tC1cx with dataframe := ⟨some "id", [Val.int 5], [("x", [Val.int 7])]⟩ }

/-- The table `tC1cx` after two `modify_index` runs: the index values were replaced by
the synthesized range 0..N-1, losing the original id data. -/
def tC1cx_twice : DBTable :=
  { tC1cx with dataframe := ⟨some "id", [Val.int 0], [("x", [Val.int 7])]⟩,
               index := some [Val.int 0] }

/-- A table whose index_label "id" does not name a column: input of the C1
amended-claim witness. -/
def tC1w : DBTable :=
  ⟨"t", "d", some "id", "p",
   ⟨Option.none, [Val.int 0], [("x", [Val.int 7])]⟩,
   Option.none, Option.none⟩

/-- The table `tC1w` after `modify_index` (and, idempotently, after two runs). -/
def tC1w' : DBTable :=
  { tC1w with dataframe := ⟨some "id", [Val.int 0], [("x", [Val.int 7])]⟩,
              index := some [Val.int 0] }

/-- A freshly constructed Database, for the register-twice scenarios. -/
def dbSchool : Database := Database.init "school" "data" "replace" 0

/-- First of two distinct tables both named "math". -/
def tMath1 : DBTable :=
  ⟨"math", "x", some "i", "p1",
   ⟨Option.none, [Val.int 0], [("a", [Val.int 1])]⟩, Option.none, Option.none⟩

/-- Second of two distinct tables both named "math". -/
def tMath2 : DBTable :=
  ⟨"math", "x", some "i", "p2",
   ⟨Option.none, [Val.int 0], [("a", [Val.int 2])]⟩, Option.none, Option.none⟩

/-- A table named "tables", colliding with the Database's internal field. -/
def tShadow : DBTable := ⟨"tables", "x", some "TID", "p", dfEmpty, Option.none, Option.none⟩

/-- A freshly constructed Database for the attribute-shadowing scenario. -/
def dbStudents : Database := Database.init "students" "data" "replace" 7

/-- The table `tShadow` as mutated by registration into `dbStudents`. -/
def tShadow' : DBTable := { tShadow with database := some 7, db_name := "students" }

/-- The database `dbStudents` after registering `tShadow`: the "tables" attribute now
holds the table object instead of the owned list. -/
def dbStudents' : Database :=
  ⟨7,
   [("name", .str "students"), ("tables", .table tShadow'),
    ("folder", .str "data"), ("path", .str "data/students.db"),
    ("connection", .conn "data/students.db"), ("cursor", .cursor),
    ("if_exists", .str "replace")],
   [("tables", ⟨"TID", dfEmpty⟩)],
   ["changing tables to new value."]⟩

/-- Generator scenario: two tables sharing the db_name "s". -/
def tGenM : DBTable := ⟨"m", "s", some "i", "d/x.csv", dfEmpty, Option.none, Option.none⟩

/-- Second table of the generator scenario. -/
def tGenP : DBTable := ⟨"p", "s", some "i", "d/x.csv", dfEmpty, Option.none, Option.none⟩

/-- The table `tGenM` as mutated by registration (back-reference to the Database 0). -/
def tGenM' : DBTable := { tGenM with database := some 0 }

/-- The table `tGenP` as mutated by registration. -/
def tGenP' : DBTable := { tGenP with database := some 0 }

/-- The single Database the generator builds for db_name "s", holding both
registered tables. -/
def dbGen' : Database :=
  ⟨0,
   [("name", .str "s"), ("tables", .tableList [tGenM', tGenP']),
    ("folder", .str "d"), ("path", .str "d/s.db"), ("connection", .conn "d/s.db"),
    ("cursor", .cursor), ("if_exists", .str "replace"),
    ("m", .table tGenM'), ("p", .table tGenP')],
   [("m", ⟨"i", dfEmpty⟩), ("p", ⟨"i", dfEmpty⟩)],
   []⟩

/-- The generator scenario's input dict. -/
def genInput : List (String × DBTable) := [("k1", tGenM), ("k2", tGenP)]

/-- The generator scenario's returned name-to-Database mapping. -/
def genRet : List (String × Database) := [("s", dbGen')]

/-- The generator scenario's tables after registration. -/
def genOuts : List (String × DBTable) := [("k1", tGenM'), ("k2", tGenP')]

/-- A file whose stem has two underscores (three parts). -/
def fileABC : CsvFile := ⟨"a_b_c.csv", sampleCsv⟩

/-- A table carrier for the round-trip witness. -/
def tRound : DBTable := ⟨"r", "d", Option.none, "p", dfEmpty, Option.none, Option.none⟩

/-- The table `tRound` after loading `sampleCsv`. -/
def tRound' : DBTable := { tRound with dataframe := dfSampleA }


/-- Well-formedness of one entry of the generator's name-to-Database mapping:
its core attributes are intact and typed as the constructor left them. -/
def dbOk (nm : String) (db : Database) : Prop :=
  alookup db.attrs "name" = some (.str nm) ∧
  (∃ ts, alookup db.attrs "tables" = some (.tableList ts)) ∧
  alookup db.attrs "if_exists" = some (.str "replace")

/-- Induction invariant of the generator loop: unique names, distinct fresh
object ids, well-formed entries, every processed table registered in the
Database its db_name maps to, and the mapping's domain tracks the processed
db_names. -/
def GenInv (ret : List (String × Database)) (outs : List (String × DBTable))
    (c : Nat) : Prop :=
  (ret.map Prod.fst).Nodup ∧
  (∀ p ∈ ret, dbOk p.1 p.2 ∧ p.2.oid < c) ∧
  (ret.map (fun p => p.2.oid)).Nodup ∧
  (∀ q ∈ outs, ∃ db, alookup ret q.2.db_name = some db ∧
    q.2.database = some db.oid ∧ q.2 ∈ db.tablesList) ∧
  (∀ d, (alookup ret d).isSome ↔ d ∈ outs.map (fun q => q.2.db_name))

theorem alookup_aupsert {α : Type} (l : List (String × α)) (k k' : String) (v : α) :
    alookup (aupsert l k v) k' = if k = k' then some v else alookup l k' := by
  induction l with
  | nil => simp [alookup, aupsert]
  | cons hd tl ih =>
    obtain ⟨a, b⟩ := hd
    by_cases hak : a = k
    · subst hak
      simp only [aupsert, if_pos rfl, alookup]
      by_cases h : a = k'
      · simp [h]
      · simp [h, alookup]
    · simp only [aupsert, if_neg hak, alookup]
      by_cases h : a = k'
      · subst h
        rw [if_pos rfl, if_neg (fun hh => hak hh.symm)]
        simp [alookup]
      · rw [if_neg h, if_neg h, ih]

theorem alookup_aupsert_self {α : Type} (l : List (String × α)) (k : String) (v : α) :
    alookup (aupsert l k v) k = some v := by
  rw [alookup_aupsert, if_pos rfl]

theorem alookup_aupsert_ne {α : Type} (l : List (String × α)) (k k' : String) (v : α)
    (h : k ≠ k') : alookup (aupsert l k v) k' = alookup l k' := by
  rw [alookup_aupsert, if_neg h]

theorem alookup_mem {α : Type} (l : List (String × α)) (k : String) (v : α)
    (h : alookup l k = some v) : (k, v) ∈ l := by
  induction l with
  | nil => simp [alookup] at h
  | cons hd tl ih =>
    obtain ⟨a, b⟩ := hd
    simp only [alookup] at h
    by_cases hak : a = k
    · rw [if_pos hak] at h
      injection h with h
      subst hak; subst h
      exact List.mem_cons_self _ _
    · rw [if_neg hak] at h
      exact List.mem_cons_of_mem _ (ih h)

theorem aupsert_mem {α : Type} (l : List (String × α)) (k : String) (v : α)
    (p : String × α) (h : p ∈ aupsert l k v) : p = (k, v) ∨ p ∈ l := by
  induction l with
  | nil => simp [aupsert] at h; simp [h]
  | cons hd tl ih =>
    obtain ⟨a, b⟩ := hd
    simp only [aupsert] at h
    by_cases hak : a = k
    · rw [if_pos hak] at h
      rcases List.mem_cons.mp h with h | h
      · exact Or.inl h
      · exact Or.inr (List.mem_cons_of_mem _ h)
    · rw [if_neg hak] at h
      rcases List.mem_cons.mp h with h | h
      · exact Or.inr (by simp [h])
      · rcases ih h with h | h
        · exact Or.inl h
        · exact Or.inr (List.mem_cons_of_mem _ h)

theorem alookup_eq_none_of_not_mem {α : Type} (l : List (String × α)) (k : String)
    (h : k ∉ l.map Prod.fst) : alookup l k = Option.none := by
  induction l with
  | nil => simp [alookup]
  | cons hd tl ih =>
    obtain ⟨a, b⟩ := hd
    simp only [List.map_cons, List.mem_cons] at h
    push_neg at h
    simp only [alookup, if_neg (fun hh : a = k => h.1 hh.symm)]
    exact ih h.2

theorem mem_of_alookup_isSome {α : Type} (l : List (String × α)) (k : String)
    (h : (alookup l k).isSome) : k ∈ l.map Prod.fst := by
  by_contra hk
  rw [alookup_eq_none_of_not_mem l k hk] at h
  simp at h

theorem alookup_isSome_of_mem {α : Type} (l : List (String × α)) (k : String)
    (h : k ∈ l.map Prod.fst) : (alookup l k).isSome := by
  induction l with
  | nil => simp at h
  | cons hd tl ih =>
    obtain ⟨a, b⟩ := hd
    simp only [List.map_cons, List.mem_cons] at h
    by_cases hak : a = k
    · simp [alookup, hak]
    · simp only [alookup, if_neg hak]
      exact ih (h.resolve_left (fun hh => hak hh.symm))

theorem aupsert_keys_of_lookup_some {α : Type} (l : List (String × α)) (k : String)
    (v w : α) (h : alookup l k = some w) :
    (aupsert l k v).map Prod.fst = l.map Prod.fst := by
  induction l with
  | nil => simp [alookup] at h
  | cons hd tl ih =>
    obtain ⟨a, b⟩ := hd
    simp only [alookup] at h
    by_cases hak : a = k
    · subst hak
      simp [aupsert]
    · rw [if_neg hak] at h
      simp only [aupsert, if_neg hak, List.map_cons]
      rw [ih h]

theorem aupsert_of_lookup_none {α : Type} (l : List (String × α)) (k : String)
    (v : α) (h : alookup l k = Option.none) : aupsert l k v = l ++ [(k, v)] := by
  induction l with
  | nil => simp [aupsert]
  | cons hd tl ih =>
    obtain ⟨a, b⟩ := hd
    simp only [alookup] at h
    by_cases hak : a = k
    · rw [if_pos hak] at h; exact absurd h (by simp)
    · rw [if_neg hak] at h
      simp only [aupsert, if_neg hak, List.cons_append]
      rw [ih h]

theorem aupsert_keys_nodup {α : Type} (l : List (String × α)) (k : String) (v : α)
    (h : (l.map Prod.fst).Nodup) : ((aupsert l k v).map Prod.fst).Nodup := by
  cases hl : alookup l k with
  | some w => rw [aupsert_keys_of_lookup_some l k v w hl]; exact h
  | none =>
    rw [aupsert_of_lookup_none l k v hl]
    simp only [List.map_append, List.map_cons, List.map_nil]
    rw [List.nodup_append]
    refine ⟨h, List.nodup_singleton _, ?_⟩
    intro a ha hb
    simp only [List.mem_singleton] at hb
    subst hb
    have := alookup_isSome_of_mem l a ha
    rw [hl] at this
    simp at this

theorem aupsert_map_snd_eq {α β : Type} (l : List (String × α)) (k : String)
    (v w : α) (f : α → β) (h : alookup l k = some w) (hf : f v = f w) :
    (aupsert l k v).map (fun p => f p.2) = l.map (fun p => f p.2) := by
  induction l with
  | nil => simp [alookup] at h
  | cons hd tl ih =>
    obtain ⟨a, b⟩ := hd
    simp only [alookup] at h
    by_cases hak : a = k
    · rw [if_pos hak] at h
      injection h with h
      subst hak; subst h
      simp [aupsert, hf]
    · rw [if_neg hak] at h
      simp only [aupsert, if_neg hak, List.map_cons]
      rw [ih h]

/-- C7: the normalisation map `students_str_map` is applied to the uppercased
value; it returns 4 for "OTHER" in columns Mjob or Fjob, 3 in reason, 2 in
guardian, the listed integer code for every other recognised key, and passes
any string whose uppercase form is not a recognised key through unchanged. -/
theorem C7_normalisation_table : ∀ value column : String,
    (pyUpper value = "OTHER" →
      ((column = "Mjob" ∨ column = "Fjob") → students_str_map value column = .int 4) ∧
      (column = "reason" → students_str_map value column = .int 3) ∧
      (column = "guardian" → students_str_map value column = .int 2)) ∧
    (pyUpper value = "YES" → students_str_map value column = .int 1) ∧
    (pyUpper value = "NO" → students_str_map value column = .int 0) ∧
    (pyUpper value = "GP" → students_str_map value column = .int 0) ∧
    (pyUpper value = "MS" → students_str_map value column = .int 1) ∧
    (pyUpper value = "F" → students_str_map value column = .int 0) ∧
    (pyUpper value = "M" → students_str_map value column = .int 1) ∧
    (pyUpper value = "U" → students_str_map value column = .int 0) ∧
    (pyUpper value = "R" → students_str_map value column = .int 1) ∧
    (pyUpper value = "LE3" → students_str_map value column = .int 0) ∧
    (pyUpper value = "GT3" → students_str_map value column = .int 1) ∧
    (pyUpper value = "T" → students_str_map value column = .int 0) ∧
    (pyUpper value = "A" → students_str_map value column = .int 1) ∧
    (pyUpper value = "TEACHER" → students_str_map value column = .int 0) ∧
    (pyUpper value = "HEALTH" → students_str_map value column = .int 1) ∧
    (pyUpper value = "SERVICES" → students_str_map value column = .int 2) ∧
    (pyUpper value = "AT_HOME" → students_str_map value column = .int 3) ∧
    (pyUpper value = "HOME" → students_str_map value column = .int 0) ∧
    (pyUpper value = "REPUTATION" → students_str_map value column = .int 1) ∧
    (pyUpper value = "COURSE" → students_str_map value column = .int 2) ∧
    (pyUpper value = "MOTHER" → students_str_map value column = .int 0) ∧
    (pyUpper value = "FATHER" → students_str_map value column = .int 1) ∧
    (recognizedKeys.contains (pyUpper value) = false →
      students_str_map value column = .str value) := by
  intro v c
  constructor
  · intro h
    refine ⟨fun hc => ?_, fun hc => ?_, fun hc => ?_⟩
    · simp only [students_str_map, h]
      rcases hc with hc | hc <;> subst hc <;> simp
    · subst hc; simp [students_str_map, h]
    · subst hc; simp [students_str_map, h]
  refine ⟨?_, ?_, ?_, ?_, ?_, ?_, ?_, ?_, ?_, ?_, ?_, ?_, ?_, ?_, ?_, ?_, ?_,
          ?_, ?_, ?_, ?_, ?_⟩ <;>
    first
    | (intro h; simp only [students_str_map, h]; done)
    | (intro h
       simp only [students_str_map]
       split
       all_goals first
         | rfl
         | (rename_i heq; rw [heq] at h; exact absurd h (by decide)))

/-- C7 witness: concrete evaluations obtained from the theorem. -/
theorem C7_witness :
    students_str_map "Other" "Mjob" = .int 4 ∧
    students_str_map "at_home" "x" = .int 3 ∧
    students_str_map "xyz" "col" = .str "xyz" := by
  refine ⟨((C7_normalisation_table "Other" "Mjob").1 (by decide)).1 (by decide), ?_, ?_⟩
  · exact (C7_normalisation_table "at_home" "x").2.2.2.2.2.2.2.2.2.2.2.2.2.2.2.2.1 (by decide)
  · exact (C7_normalisation_table "xyz" "col").2.2.2.2.2.2.2.2.2.2.2.2.2.2.2.2.2.2.2.2.2.2
      (by decide)

/-- C10: a value whose uppercase form is "OTHER" in any column other than
reason, guardian, Mjob and Fjob makes `students_str_map` return None (the
match arm has no final else), not the value unchanged. -/
theorem C10_other_returns_none : ∀ value column : String,
    pyUpper value = "OTHER" → column ≠ "reason" → column ≠ "guardian" →
    column ≠ "Mjob" → column ≠ "Fjob" →
    students_str_map value column = .none := by
  intro v c h hr hg hm hf
  simp only [students_str_map, h]
  simp [hr, hg, hm, hf]

/-- C10 witness: "other" in column "age" maps to None. -/
theorem C10_witness : students_str_map "other" "age" = .none :=
  C10_other_returns_none "other" "age" (by decide) (by decide) (by decide)
    (by decide) (by decide)


theorem aupsert_nil {α : Type} (k : String) (v : α) : aupsert [] k v = [(k, v)] := rfl

theorem alookup_cons {α : Type} (k' k : String) (v : α) (l : List (String × α)) :
    alookup ((k', v) :: l) k = if k' = k then some v else alookup l k := rfl

theorem gatherStep_matched (folder : String) (d : List (String × DBTable))
    (nm : String) (c : Csv) (stem dn tn : String)
    (hg : globMatch nm = true)
    (hst : strDropRight nm 4 = stem)
    (hsp : pySplit '_' stem = [dn, tn]) :
    gatherStep folder (.ok d) ⟨nm, c⟩ =
      (match read_csv c with
       | some df => .ok (aupsert d stem
           ⟨tn, dn, Option.none, folder ++ "/" ++ nm, df, Option.none, Option.none⟩)
       | Option.none => .error "ParserError") := by
  simp only [gatherStep, Except.bind, hg, hst, hsp, if_true]

/-- C5: scanning a directory holding exactly school_math.csv and
school_portuguese.csv yields the keys school_math and school_portuguese,
whose tables carry db_name "school" and names "math" and "portuguese" with
the loaded data; and any file not matching the `*_*.csv` pattern is skipped
silently. -/
theorem C5_scanner_two_files : ∀ (c1 c2 : Csv) (df1 df2 : DataFrame) (folder : String),
    read_csv c1 = some df1 → read_csv c2 = some df2 →
    gather_csv_paths folder [⟨"school_math.csv", c1⟩, ⟨"school_portuguese.csv", c2⟩] =
      .ok [("school_math",
            ⟨"math", "school", Option.none, folder ++ "/" ++ "school_math.csv",
             df1, Option.none, Option.none⟩),
           ("school_portuguese",
            ⟨"portuguese", "school", Option.none, folder ++ "/" ++ "school_portuguese.csv",
             df2, Option.none, Option.none⟩)] ∧
    (∀ (files : List CsvFile) (f : CsvFile), globMatch f.name = false →
      gather_csv_paths folder (files ++ [f]) = gather_csv_paths folder files) := by
  intro c1 c2 df1 df2 folder h1 h2
  have g1 : globMatch "school_math.csv" = true := by decide
  have g2 : globMatch "school_portuguese.csv" = true := by decide
  have d1 : strDropRight "school_math.csv" 4 = "school_math" := by decide
  have d2 : strDropRight "school_portuguese.csv" 4 = "school_portuguese" := by decide
  have p1 : pySplit '_' "school_math" = ["school", "math"] := by decide
  have p2 : pySplit '_' "school_portuguese" = ["school", "portuguese"] := by decide
  have ne1 : "school_math" ≠ "school_portuguese" := by decide
  constructor
  · simp only [gather_csv_paths, List.foldl_cons, List.foldl_nil]
    have e1 : gatherStep folder (.ok []) ⟨"school_math.csv", c1⟩
        = .ok [("school_math",
            (⟨"math", "school", Option.none, folder ++ "/" ++ "school_math.csv",
              df1, Option.none, Option.none⟩ : DBTable))] :=
      (gatherStep_matched folder [] "school_math.csv" c1 "school_math"
        "school" "math" g1 d1 p1).trans (by rw [h1]; rfl)
    rw [e1]
    have hnone : alookup [("school_math",
        (⟨"math", "school", Option.none, folder ++ "/" ++ "school_math.csv",
          df1, Option.none, Option.none⟩ : DBTable))] "school_portuguese"
        = Option.none := by
      rw [alookup_cons, if_neg ne1]
      rfl
    have e2 : gatherStep folder
        (.ok [("school_math",
          (⟨"math", "school", Option.none, folder ++ "/" ++ "school_math.csv",
            df1, Option.none, Option.none⟩ : DBTable))])
        ⟨"school_portuguese.csv", c2⟩
        = .ok (aupsert [("school_math",
            (⟨"math", "school", Option.none, folder ++ "/" ++ "school_math.csv",
              df1, Option.none, Option.none⟩ : DBTable))] "school_portuguese"
            ⟨"portuguese", "school", Option.none,
             folder ++ "/" ++ "school_portuguese.csv", df2, Option.none, Option.none⟩) :=
      (gatherStep_matched folder _ "school_portuguese.csv" c2 "school_portuguese"
        "school" "portuguese" g2 d2 p2).trans (by rw [h2])
    rw [e2, aupsert_of_lookup_none _ _ _ hnone]
    rfl
  · intro files f hf
    unfold gather_csv_paths
    rw [List.foldl_append]
    simp only [List.foldl]
    cases hacc : List.foldl (gatherStep folder) (Except.ok []) files with
    | error e => simp only [gatherStep, Except.bind]
    | ok d => simp only [gatherStep, Except.bind, hf, Bool.false_eq_true, if_false]

/-- C5 witness: the scanner applied to the two concrete school files. -/
theorem C5_witness :
    gather_csv_paths "d" [⟨"school_math.csv", sampleCsv⟩, ⟨"school_portuguese.csv", csvB⟩] =
      .ok [("school_math",
            ⟨"math", "school", Option.none, "d" ++ "/" ++ "school_math.csv",
             dfSampleA, Option.none, Option.none⟩),
           ("school_portuguese",
            ⟨"portuguese", "school", Option.none, "d" ++ "/" ++ "school_portuguese.csv",
             dfCsvB, Option.none, Option.none⟩)] :=
  (C5_scanner_two_files sampleCsv csvB dfSampleA dfCsvB "d" (by decide) (by decide)).1

/-- C6 counterexample: on a matched file whose stem has two underscores the
scanner does not split on the first underscore into ("a", "b_c"); the whole
run raises ValueError instead. -/
theorem C6_counterexample :
    gather_csv_paths "data" [fileABC] =
      .error "ValueError: not exactly two values to unpack" := by rfl

theorem gather_foldl_error (folder : String) (files : List CsvFile) (e : String) :
    files.foldl (gatherStep folder) (.error e) = .error e := by
  induction files with
  | nil => rfl
  | cons f fs ih => exact ih

/-- C6 amended: a glob-matched file whose stem does not split on underscores
into exactly two parts — in particular any stem with more than one
underscore — makes the whole scan error; the stem is never split on only the
first underscore. -/
theorem C6_amended_thm : ∀ (folder : String) (f : CsvFile),
    globMatch f.name = true →
    (pySplit '_' (strDropRight f.name 4)).length ≠ 2 →
    ∀ (files : List CsvFile) (acc : Except String (List (String × DBTable))),
    f ∈ files → (files.foldl (gatherStep folder) acc).isOk = false := by
  intro folder f hglob hlen files
  induction files with
  | nil => intro acc h; simp at h
  | cons g gs ih =>
    intro acc hmem
    rcases List.mem_cons.mp hmem with heq | hmem'
    · subst heq
      show (gs.foldl (gatherStep folder) (gatherStep folder acc f)).isOk = false
      cases acc with
      | error e =>
        rw [show gatherStep folder (.error e) f = .error e from rfl]
        rw [gather_foldl_error folder gs e]
        rfl
      | ok d =>
        have hstep : gatherStep folder (.ok d) f
            = .error "ValueError: not exactly two values to unpack" := by
          simp only [gatherStep, Except.bind, hglob, if_true]
          split
          · rename_i a b hsp
            exact absurd (show (pySplit '_' (strDropRight f.name 4)).length = 2
              by rw [hsp]; rfl) hlen
          · rfl
        rw [hstep, gather_foldl_error folder gs]
        rfl
    · exact ih (gatherStep folder acc g) hmem'

/-- C6 amended witness: the file a_b_c.csv makes the scan error. -/
theorem C6_amended_witness :
    ([fileABC].foldl (gatherStep "data") (.ok [])).isOk = false :=
  C6_amended_thm "data" fileABC (by decide) (by decide) [fileABC] (.ok [])
    (List.mem_singleton.mpr rfl)

/-- C9: every successful `add_table` call binds the table object as an
attribute of the Database named after the table, so a table name colliding
with an internal field (the witness uses "tables") overwrites that field with
the table object. -/
theorem C9_setattr_binding : ∀ (db : Database) (t : DBTable) (db' : Database)
    (t' : DBTable), db.add_table t = .ok (db', t') →
    alookup db'.attrs t.name = some (.table t') := by
  intro db t db' t' h
  unfold Database.add_table at h
  split at h
  case h_2 => exact absurd h (by simp)
  case h_1 nm _ =>
    split at h
    case h_2 => exact absurd h (by simp)
    case h_1 ts _ =>
      dsimp only at h
      split at h
      case h_2 => exact absurd h (by simp)
      case h_1 lbl _ =>
        split at h
        case h_2 => exact absurd h (by simp)
        case h_1 ie _ =>
          split at h
          case isFalse => exact absurd h (by simp)
          case isTrue =>
            cases h
            exact alookup_aupsert_self _ _ _

/-- C9 witness: registering the table named "tables" into a fresh Database
replaces the internal "tables" attribute (the owned list) with the table
object. -/
theorem C9_witness : alookup dbStudents'.attrs "tables" = some (.table tShadow') :=
  C9_setattr_binding dbStudents tShadow dbStudents' tShadow' (by rfl)

theorem add_table_spec (db : Database) (t : DBTable) (nm : String) (ts : List DBTable)
    (lbl : String)
    (hn : alookup db.attrs "name" = some (.str nm))
    (ht : alookup db.attrs "tables" = some (.tableList ts))
    (hie : alookup db.attrs "if_exists" = some (.str "replace"))
    (hlbl : t.index_label = some lbl)
    (hne : t.name ≠ "if_exists") :
    db.add_table t = .ok
      ({ oid := db.oid
         attrs := aupsert (aupsert db.attrs "tables"
             (.tableList (ts ++ [{ t with database := some db.oid, db_name := nm }])))
           t.name (.table { t with database := some db.oid, db_name := nm })
         store := aupsert db.store t.name
           { index_label := lbl, dataframe := t.dataframe }
         log := if (alookup (aupsert db.attrs "tables"
               (.tableList (ts ++ [{ t with database := some db.oid, db_name := nm }])))
               t.name).isSome
             then db.log ++ ["changing " ++ t.name ++ " to new value."]
             else db.log },
       { t with database := some db.oid, db_name := nm }) := by
  unfold Database.add_table
  rw [hn]
  dsimp only
  rw [ht]
  dsimp only
  rw [hlbl]
  dsimp only
  rw [alookup_aupsert_ne _ t.name "if_exists" _ hne,
      alookup_aupsert_ne _ "tables" "if_exists" _ (by decide), hie]
  dsimp only
  rw [if_pos rfl]

theorem add_table_twice (db : Database) (t1 t2 : DBTable) (nm n l1 l2 : String)
    (ts : List DBTable)
    (hn : alookup db.attrs "name" = some (.str nm))
    (ht : alookup db.attrs "tables" = some (.tableList ts))
    (hie : alookup db.attrs "if_exists" = some (.str "replace"))
    (hfresh : alookup db.attrs n = Option.none)
    (hn1 : t1.name = n) (hn2 : t2.name = n)
    (hl1 : t1.index_label = some l1) (hl2 : t2.index_label = some l2) :
    ∃ (db1 db2 : Database),
      db.add_table t1 = .ok (db1, { t1 with database := some db.oid, db_name := nm }) ∧
      db1.add_table t2 = .ok (db2, { t2 with database := some db.oid, db_name := nm }) ∧
      db2.table_names = ts.map (fun x => x.name) ++ [n, n] ∧
      alookup db2.attrs n =
        some (.table { t2 with database := some db.oid, db_name := nm }) ∧
      alookup db2.store n = some ⟨l2, t2.dataframe⟩ ∧
      db2.log = db.log ++ ["changing " ++ n ++ " to new value."] := by
  have hnn : n ≠ "name" := by intro h; rw [h, hn] at hfresh; cases hfresh
  have hnt : n ≠ "tables" := by intro h; rw [h, ht] at hfresh; cases hfresh
  have hni : n ≠ "if_exists" := by intro h; rw [h, hie] at hfresh; cases hfresh
  have hne1 : t1.name ≠ "if_exists" := by rw [hn1]; exact hni
  have hne2 : t2.name ≠ "if_exists" := by rw [hn2]; exact hni
  have e1 := add_table_spec db t1 nm ts l1 hn ht hie hl1 hne1
  have hlog1 : (alookup (aupsert db.attrs "tables"
      (.tableList (ts ++ [{ t1 with database := some db.oid, db_name := nm }])))
      t1.name).isSome = false := by
    rw [alookup_aupsert_ne _ "tables" t1.name _
          (by rw [hn1]; exact fun h => hnt h.symm),
        hn1, hfresh]
    rfl
  simp only [hlog1, Bool.false_eq_true, if_false] at e1
  have e2hn : alookup (aupsert (aupsert db.attrs "tables"
      (.tableList (ts ++ [{ t1 with database := some db.oid, db_name := nm }])))
      t1.name (.table { t1 with database := some db.oid, db_name := nm })) "name"
      = some (.str nm) := by
    rw [alookup_aupsert_ne _ t1.name "name" _ (by rw [hn1]; exact hnn),
        alookup_aupsert_ne _ "tables" "name" _ (by decide), hn]
  have e2ht : alookup (aupsert (aupsert db.attrs "tables"
      (.tableList (ts ++ [{ t1 with database := some db.oid, db_name := nm }])))
      t1.name (.table { t1 with database := some db.oid, db_name := nm })) "tables"
      = some (.tableList (ts ++ [{ t1 with database := some db.oid, db_name := nm }])) := by
    rw [alookup_aupsert_ne _ t1.name "tables" _ (by rw [hn1]; exact hnt),
        alookup_aupsert_self]
  have e2hie : alookup (aupsert (aupsert db.attrs "tables"
      (.tableList (ts ++ [{ t1 with database := some db.oid, db_name := nm }])))
      t1.name (.table { t1 with database := some db.oid, db_name := nm })) "if_exists"
      = some (.str "replace") := by
    rw [alookup_aupsert_ne _ t1.name "if_exists" _ hne1,
        alookup_aupsert_ne _ "tables" "if_exists" _ (by decide), hie]
  have e2 := add_table_spec
    ⟨db.oid,
     aupsert (aupsert db.attrs "tables"
        (.tableList (ts ++ [{ t1 with database := some db.oid, db_name := nm }])))
       t1.name (.table { t1 with database := some db.oid, db_name := nm }),
     aupsert db.store t1.name ⟨l1, t1.dataframe⟩,
     db.log⟩
    t2 nm (ts ++ [{ t1 with database := some db.oid, db_name := nm }]) l2
    e2hn e2ht e2hie hl2 hne2
  dsimp only at e2
  have hlog2 : (alookup (aupsert (aupsert (aupsert db.attrs "tables"
      (.tableList (ts ++ [{ t1 with database := some db.oid, db_name := nm }])))
      t1.name (.table { t1 with database := some db.oid, db_name := nm })) "tables"
      (.tableList (ts ++ [{ t1 with database := some db.oid, db_name := nm }] ++
        [{ t2 with database := some db.oid, db_name := nm }])))
      t2.name).isSome = true := by
    rw [alookup_aupsert_ne _ "tables" t2.name _
          (by rw [hn2]; exact fun h => hnt h.symm),
        hn2, hn1, alookup_aupsert_self]
    rfl
  simp only [hlog2, if_true] at e2
  refine ⟨_, _, e1, e2, ?_, ?_, ?_, ?_⟩
  · dsimp only [Database.table_names, Database.tablesList]
    rw [alookup_aupsert_ne _ t2.name "tables" _ (by rw [hn2]; exact hnt),
        alookup_aupsert_self]
    simp [hn1, hn2]
  · rw [← hn2, alookup_aupsert_self]
  · rw [← hn2, alookup_aupsert_self]
  · dsimp only
    rw [hn2]

/-- C2 counterexample: registering two distinct tables both named "math" into
a fresh Database leaves BOTH in the owned collection — `table_names` is
["math", "math"] with two entries of that name, not exactly one. -/
theorem C2_counterexample :
    ((dbSchool.add_table tMath1).bind (fun r => r.1.add_table tMath2)).map
      (fun r => (r.1.table_names, r.1.table_names.count "math"))
      = .ok (["math", "math"], 2) := by rfl

/-- C2 amended: `add_table` appends, so after registering two tables of the
same name the owned collection holds both entries (names are not unique);
only the attribute binding and the relational store are last-write-wins, and
the ic warning is logged on the second call. -/
theorem C2_amended_thm : ∀ (db : Database) (t1 t2 : DBTable) (nm n l1 l2 : String)
    (ts : List DBTable),
    alookup db.attrs "name" = some (.str nm) →
    alookup db.attrs "tables" = some (.tableList ts) →
    alookup db.attrs "if_exists" = some (.str "replace") →
    alookup db.attrs n = Option.none →
    t1.name = n → t2.name = n →
    t1.index_label = some l1 → t2.index_label = some l2 →
    ∃ (db1 db2 : Database),
      db.add_table t1 = .ok (db1, { t1 with database := some db.oid, db_name := nm }) ∧
      db1.add_table t2 = .ok (db2, { t2 with database := some db.oid, db_name := nm }) ∧
      db2.table_names = ts.map (fun x => x.name) ++ [n, n] ∧
      alookup db2.attrs n =
        some (.table { t2 with database := some db.oid, db_name := nm }) ∧
      alookup db2.store n = some ⟨l2, t2.dataframe⟩ ∧
      db2.log = db.log ++ ["changing " ++ n ++ " to new value."] := by
  intro db t1 t2 nm n l1 l2 ts hn ht hie hfresh hn1 hn2 hl1 hl2
  exact add_table_twice db t1 t2 nm n l1 l2 ts hn ht hie hfresh hn1 hn2 hl1 hl2

/-- C2 amended witness: the concrete two-"math" scenario. -/
theorem C2_amended_witness :
    ∃ (db1 db2 : Database),
      dbSchool.add_table tMath1 = .ok (db1,
        ⟨"math", "school", some "i", "p1",
         ⟨Option.none, [Val.int 0], [("a", [Val.int 1])]⟩, some 0, Option.none⟩) ∧
      db1.add_table tMath2 = .ok (db2,
        ⟨"math", "school", some "i", "p2",
         ⟨Option.none, [Val.int 0], [("a", [Val.int 2])]⟩, some 0, Option.none⟩) ∧
      db2.table_names = ["math", "math"] ∧
      alookup db2.attrs "math" = some (.table
        ⟨"math", "school", some "i", "p2",
         ⟨Option.none, [Val.int 0], [("a", [Val.int 2])]⟩, some 0, Option.none⟩) ∧
      alookup db2.store "math" =
        some ⟨"i", ⟨Option.none, [Val.int 0], [("a", [Val.int 2])]⟩⟩ ∧
      db2.log = ["changing math to new value."] :=
  C2_amended_thm dbSchool tMath1 tMath2 "school" "math" "i" "i" []
    rfl rfl rfl rfl rfl rfl rfl rfl

/-- C4: registering two distinct tables of the same name in sequence leaves,
under that name in the relational store, exactly the second table's data (the
to_sql if_exists="replace" write keyed by the table's index column). -/
theorem C4_store_replace : ∀ (db : Database) (t1 t2 : DBTable) (nm n l1 l2 : String)
    (ts : List DBTable),
    t1 ≠ t2 →
    alookup db.attrs "name" = some (.str nm) →
    alookup db.attrs "tables" = some (.tableList ts) →
    alookup db.attrs "if_exists" = some (.str "replace") →
    alookup db.attrs n = Option.none →
    t1.name = n → t2.name = n →
    t1.index_label = some l1 → t2.index_label = some l2 →
    ∃ (db1 db2 : Database) (t1' t2' : DBTable),
      db.add_table t1 = .ok (db1, t1') ∧
      db1.add_table t2 = .ok (db2, t2') ∧
      alookup db2.store n = some ⟨l2, t2.dataframe⟩ := by
  intro db t1 t2 nm n l1 l2 ts hne12 hn ht hie hfresh hn1 hn2 hl1 hl2
  obtain ⟨db1, db2, e1, e2, -, -, hstore, -⟩ :=
    add_table_twice db t1 t2 nm n l1 l2 ts hn ht hie hfresh hn1 hn2 hl1 hl2
  exact ⟨db1, db2, _, _, e1, e2, hstore⟩

/-- C4 witness: the concrete two-"math" scenario; the store holds the second
table's dataframe. -/
theorem C4_witness :
    ∃ (db1 db2 : Database) (t1' t2' : DBTable),
      dbSchool.add_table tMath1 = .ok (db1, t1') ∧
      db1.add_table tMath2 = .ok (db2, t2') ∧
      alookup db2.store "math" =
        some ⟨"i", ⟨Option.none, [Val.int 0], [("a", [Val.int 2])]⟩⟩ :=
  C4_store_replace dbSchool tMath1 tMath2 "school" "math" "i" "i" []
    (by decide) rfl rfl rfl rfl rfl rfl rfl rfl

theorem find?_col_of_contains (l : List (String × List Val)) (lbl : String)
    (h : (l.map Prod.fst).contains lbl = true) :
    ∃ v, l.find? (fun c => c.1 == lbl) = some (lbl, v) := by
  induction l with
  | nil => simp at h
  | cons hd tl ih =>
    obtain ⟨a, b⟩ := hd
    by_cases hab : a = lbl
    · subst hab
      exact ⟨b, by simp [List.find?]⟩
    · simp only [List.map_cons, List.contains_cons, Bool.or_eq_true, beq_iff_eq] at h
      rcases h with h | h
      · exact absurd h.symm hab
      · obtain ⟨v, hv⟩ := ih h
        have hb : (a == lbl) = false := beq_eq_false_iff_ne.mpr hab
        refine ⟨v, ?_⟩
        simp only [List.find?, hb]
        exact hv

theorem contains_filter_ne (l : List (String × List Val)) (lbl : String) :
    (((l.filter (fun c => !(c.1 == lbl))).map Prod.fst).contains lbl) = false := by
  induction l with
  | nil => rfl
  | cons hd tl ih =>
    obtain ⟨a, b⟩ := hd
    by_cases hab : a = lbl
    · have hb : (a == lbl) = true := beq_iff_eq.mpr hab
      simp [List.filter, hb, ih]
    · have hb : (a == lbl) = false := beq_eq_false_iff_ne.mpr hab
      have hb2 : (lbl == a) = false := beq_eq_false_iff_ne.mpr (fun hh => hab hh.symm)
      simp [List.filter, hb, hb2, ih]
      exact fun hh => hab hh.symm

theorem filter_ne_of_not_contains (l : List (String × List Val)) (lbl : String)
    (h : (l.map Prod.fst).contains lbl = false) :
    l.filter (fun c => !(c.1 == lbl)) = l := by
  induction l with
  | nil => rfl
  | cons hd tl ih =>
    obtain ⟨a, b⟩ := hd
    simp only [List.map_cons, List.contains_cons, Bool.or_eq_false_iff,
      beq_eq_false_iff_ne] at h
    have hb : (a == lbl) = false := beq_eq_false_iff_ne.mpr (fun hh => h.1 hh.symm)
    simp [List.filter, hb, ih h.2]

theorem intRange_length (n : Nat) : (intRange n).length = n := by
  unfold intRange
  rw [List.length_map, List.length_range]

theorem modify_index_of_contains (t : DBTable) (lbl : String)
    (hl : t.index_label = some lbl)
    (hc : (t.dataframe.cols.map Prod.fst).contains lbl = true) :
    ∃ v, t.dataframe.cols.find? (fun c => c.1 == lbl) = some (lbl, v) ∧
      t.modify_index = .ok { t with dataframe :=
        ⟨some lbl, v, t.dataframe.cols.filter (fun c => !(c.1 == lbl))⟩ } := by
  obtain ⟨v, hfind⟩ := find?_col_of_contains _ _ hc
  refine ⟨v, hfind, ?_⟩
  unfold DBTable.modify_index
  rw [hl]
  dsimp only
  rw [if_pos hc]
  unfold DataFrame.set_index
  rw [hfind]

theorem modify_index_not_contains_none (t : DBTable) (lbl : String)
    (hl : t.index_label = some lbl)
    (hc : (t.dataframe.cols.map Prod.fst).contains lbl = false)
    (hi : t.index = Option.none) :
    t.modify_index = .ok { t with
      index := some (intRange t.dataframe.nrows),
      dataframe := ⟨some lbl, intRange t.dataframe.nrows, t.dataframe.cols⟩ } := by
  unfold DBTable.modify_index
  rw [hl]
  dsimp only
  rw [if_neg (by rw [hc]; exact Bool.false_ne_true), if_pos hi]
  dsimp only
  unfold DataFrame.insert
  rw [if_neg (by rw [hc]; exact Bool.false_ne_true),
      if_pos (by rw [intRange_length])]
  dsimp only [insertAt]
  unfold DataFrame.set_index
  rw [List.find?_cons_of_pos _ (by simp)]
  dsimp only
  rw [show ((lbl, intRange t.dataframe.nrows) :: t.dataframe.cols).filter
        (fun c => !(c.1 == lbl))
      = t.dataframe.cols.filter (fun c => !(c.1 == lbl)) from by simp [List.filter],
      filter_ne_of_not_contains _ _ hc]

theorem modify_index_not_contains_some_ok (t t1 : DBTable) (lbl : String)
    (idx : List Val)
    (hl : t.index_label = some lbl)
    (hc : (t.dataframe.cols.map Prod.fst).contains lbl = false)
    (hi : t.index = some idx)
    (h : t.modify_index = .ok t1) :
    idx.length = t.dataframe.nrows ∧
      t1 = { t with dataframe := ⟨some lbl, idx, t.dataframe.cols⟩ } := by
  unfold DBTable.modify_index at h
  rw [hl] at h
  dsimp only at h
  rw [if_neg (by rw [hc]; exact Bool.false_ne_true),
      if_neg (by rw [hi]; exact fun hh => Option.noConfusion hh)] at h
  rw [hi] at h
  dsimp only at h
  unfold DataFrame.insert at h
  rw [if_neg (by rw [hc]; exact Bool.false_ne_true)] at h
  by_cases hlen : idx.length = t.dataframe.nrows
  · rw [if_pos hlen] at h
    dsimp only [insertAt] at h
    unfold DataFrame.set_index at h
    rw [List.find?_cons_of_pos _ (by simp)] at h
    dsimp only at h
    rw [show ((lbl, idx) :: t.dataframe.cols).filter (fun c => !(c.1 == lbl))
          = t.dataframe.cols.filter (fun c => !(c.1 == lbl)) from by simp [List.filter],
        filter_ne_of_not_contains _ _ hc] at h
    cases h
    exact ⟨hlen, by rw [hi]⟩
  · rw [if_neg hlen] at h
    cases h

/-- C1 counterexample: a table whose index_label "id" names an existing
column holding 5; the first modify_index makes that column the index, the
second re-inserts the label and replaces the index values with the
synthesized range 0..N-1 — the dataframe after two runs differs from the
dataframe after one. -/
theorem C1_counterexample :
    tC1cx.modify_index = .ok tC1cx_once ∧
    tC1cx_once.modify_index = .ok tC1cx_twice ∧
    tC1cx_twice.dataframe ≠ tC1cx_once.dataframe :=
  ⟨by rfl, by rfl, by decide⟩

/-- C1 amended: a second modify_index run never duplicates a regular column
(the column set after two runs equals the column set after one), and when
index_label does not name an existing column the operation is fully
idempotent; when it does name a column, the second run replaces the index
data (see the counterexample). -/
theorem C1_amended_thm : ∀ (t t1 t2 : DBTable) (lbl : String),
    t.index_label = some lbl →
    t.modify_index = .ok t1 → t1.modify_index = .ok t2 →
    t2.dataframe.cols = t1.dataframe.cols ∧
    ((t.dataframe.cols.map Prod.fst).contains lbl = false → t2 = t1) := by
  intro t t1 t2 lbl hl h1 h2
  by_cases hc : (t.dataframe.cols.map Prod.fst).contains lbl = true
  · obtain ⟨v, hfind, heq⟩ := modify_index_of_contains t lbl hl hc
    rw [heq] at h1
    cases h1
    have hc1 : ((({ t with dataframe :=
        ⟨some lbl, v, t.dataframe.cols.filter (fun c => !(c.1 == lbl))⟩ } :
        DBTable).dataframe.cols.map Prod.fst).contains lbl) = false :=
      contains_filter_ne _ _
    cases hidx : t.index with
    | none =>
      have h2' := modify_index_not_contains_none
        { t with dataframe :=
          ⟨some lbl, v, t.dataframe.cols.filter (fun c => !(c.1 == lbl))⟩ }
        lbl hl hc1 hidx
      rw [h2'] at h2
      cases h2
      refine ⟨rfl, fun habs => ?_⟩
      rw [habs] at hc
      exact Bool.noConfusion hc
    | some idx =>
      obtain ⟨hlen, ht2⟩ := modify_index_not_contains_some_ok
        { t with dataframe :=
          ⟨some lbl, v, t.dataframe.cols.filter (fun c => !(c.1 == lbl))⟩ }
        t2 lbl idx hl hc1 hidx h2
      rw [ht2]
      refine ⟨rfl, fun habs => ?_⟩
      rw [habs] at hc
      exact Bool.noConfusion hc
  · have hc' : (t.dataframe.cols.map Prod.fst).contains lbl = false := by
      cases hb : (t.dataframe.cols.map Prod.fst).contains lbl with
      | false => rfl
      | true => exact absurd hb hc
    cases hidx : t.index with
    | none =>
      have h1' := modify_index_not_contains_none t lbl hl hc' hidx
      rw [h1'] at h1
      cases h1
      obtain ⟨hlen2, ht2⟩ := modify_index_not_contains_some_ok
        { t with index := some (intRange t.dataframe.nrows),
                 dataframe := ⟨some lbl, intRange t.dataframe.nrows, t.dataframe.cols⟩ }
        t2 lbl (intRange t.dataframe.nrows) hl hc' rfl h2
      rw [ht2]
      exact ⟨rfl, fun _ => rfl⟩
    | some idx =>
      obtain ⟨hlen1, ht1⟩ :=
        modify_index_not_contains_some_ok t t1 lbl idx hl hc' hidx h1
      subst ht1
      obtain ⟨hlen2, ht2⟩ := modify_index_not_contains_some_ok
        { t with dataframe := ⟨some lbl, idx, t.dataframe.cols⟩ }
        t2 lbl idx hl hc' hidx h2
      rw [ht2]
      exact ⟨rfl, fun _ => rfl⟩

/-- C1 amended witness: with index_label "id" not among the columns,
modify_index is idempotent on the concrete table tC1w. -/
theorem C1_amended_witness :
    tC1w'.dataframe.cols = tC1w'.dataframe.cols ∧
    ((tC1w.dataframe.cols.map Prod.fst).contains "id" = false → tC1w' = tC1w') :=
  C1_amended_thm tC1w tC1w' tC1w' "id" rfl (by rfl) (by rfl)

theorem unnamed_ne_empty (i : Nat) : "Unnamed: " ++ toString i ≠ "" := by
  intro h
  have h2 := congrArg String.length h
  rw [String.length_append] at h2
  have h3 : "Unnamed: ".length = 9 := by decide
  have h4 : "".length = 0 := by decide
  rw [h3, h4] at h2
  omega

theorem mapIdx_ne_empty (l : List String) : ∀ (f : Nat → String → String),
    (∀ i s, f i s ≠ "") → ∀ x ∈ List.mapIdx f l, x ≠ "" := by
  induction l with
  | nil => intro f hf x hx; simp at hx
  | cons a tl ih =>
    intro f hf x hx
    rw [List.mapIdx_cons] at hx
    rcases List.mem_cons.mp hx with h | h
    · rw [h]; exact hf 0 a
    · exact ih (fun i => f (i + 1)) (fun i s => hf (i + 1) s) x h

theorem renameUnnamed_ne_empty (l : List String) :
    ∀ x ∈ renameUnnamed l, x ≠ "" := by
  unfold renameUnnamed
  apply mapIdx_ne_empty
  intro i s
  by_cases hs : s = ""
  · rw [if_pos hs]; exact unnamed_ne_empty i
  · rw [if_neg hs]; exact hs

theorem mapIdx_id_of_mem (l : List String) : ∀ (f : Nat → String → String),
    (∀ i s, s ∈ l → f i s = s) → List.mapIdx f l = l := by
  induction l with
  | nil => intro f _; rfl
  | cons a tl ih =>
    intro f hf
    rw [List.mapIdx_cons, hf 0 a (List.mem_cons_self a tl),
        ih (fun i => f (i + 1)) (fun i s hs => hf (i + 1) s (List.mem_cons_of_mem a hs))]

theorem renameUnnamed_cons_of_ne_empty (names : List String)
    (h : ∀ s ∈ names, s ≠ "") :
    renameUnnamed ("" :: names) = "Unnamed: 0" :: names := by
  unfold renameUnnamed
  rw [List.mapIdx_cons, if_pos rfl]
  rw [mapIdx_id_of_mem names _ (fun i s hs => if_neg (h s hs))]
  rfl

theorem mapIdx_pair_fst {β : Type} (l : List String) (h : Nat → String → β) :
    (List.mapIdx (fun i a => (a, h i a)) l).map Prod.fst = l := by
  induction l generalizing h with
  | nil => rfl
  | cons a tl ih =>
    rw [List.mapIdx_cons, List.map_cons]
    rw [ih (fun i => h (i + 1))]

/-- C8: loading a valid CSV, saving the dataframe back (index included), and
loading again yields a table with the same row count and the same column
list as the first load, except for the addition of the serialized index
column (pandas names the blank-header index column "Unnamed: 0"). -/
theorem C8_round_trip : ∀ (t0 t1 : DBTable) (csv : Csv),
    t0.csv_to_dataframe csv = .ok t1 →
    ∃ t2, t1.csv_to_dataframe t1.dataframe_to_csv = .ok t2 ∧
      t2.dataframe.nrows = t1.dataframe.nrows ∧
      t2.dataframe.cols.map Prod.fst = "Unnamed: 0" :: t1.dataframe.cols.map Prod.fst := by
  intro t0 t1 csv h
  unfold DBTable.csv_to_dataframe at h
  cases hr : read_csv csv with
  | none => rw [hr] at h; cases h
  | some df =>
    rw [hr] at h
    cases h
    unfold read_csv at hr
    split at hr
    case isFalse => cases hr
    case isTrue hrect =>
      injection hr with hdf
      subst hdf
      unfold DBTable.csv_to_dataframe DBTable.dataframe_to_csv
      have hrect2 : ∀ (dfr : DataFrame),
          (to_csv dfr).rows.all
            (fun r => r.length = (to_csv dfr).header.length) = true := by
        intro dfr
        rw [List.all_eq_true]
        intro r hrmem
        rcases List.mem_map.mp hrmem with ⟨j, hj, hjr⟩
        subst hjr
        simp [to_csv, List.length_map]
      unfold read_csv
      rw [if_pos (hrect2 _)]
      refine ⟨_, rfl, ?_, ?_⟩
      · simp [DataFrame.nrows, to_csv, intRange_length]
      · dsimp only
        rw [mapIdx_pair_fst]
        dsimp only [to_csv]
        rw [mapIdx_pair_fst]
        apply renameUnnamed_cons_of_ne_empty
        intro s hs
        exact renameUnnamed_ne_empty csv.header s hs

/-- C8 witness: the round trip on the concrete one-cell CSV. -/
theorem C8_witness :
    ∃ t2, tRound'.csv_to_dataframe tRound'.dataframe_to_csv = .ok t2 ∧
      t2.dataframe.nrows = tRound'.dataframe.nrows ∧
      t2.dataframe.cols.map Prod.fst =
        "Unnamed: 0" :: tRound'.dataframe.cols.map Prod.fst :=
  C8_round_trip tRound tRound' sampleCsv (by rfl)

theorem tablesList_of_attr (db : Database) (ts : List DBTable)
    (h : alookup db.attrs "tables" = some (.tableList ts)) : db.tablesList = ts := by
  unfold Database.tablesList
  rw [h]

theorem add_table_ok_char (db : Database) (t0 : DBTable) (db' : Database) (t2 : DBTable)
    (nm : String) (ts : List DBTable)
    (h : db.add_table t0 = .ok (db', t2))
    (hn : alookup db.attrs "name" = some (.str nm))
    (ht : alookup db.attrs "tables" = some (.tableList ts))
    (hie : alookup db.attrs "if_exists" = some (.str "replace"))
    (hb : builtinAttrs.contains t0.name = false) :
    t2 = { t0 with database := some db.oid, db_name := nm } ∧
    db'.oid = db.oid ∧
    alookup db'.attrs "name" = some (.str nm) ∧
    alookup db'.attrs "tables" = some (.tableList (ts ++ [t2])) ∧
    alookup db'.attrs "if_exists" = some (.str "replace") := by
  have hne_ie : t0.name ≠ "if_exists" := by
    intro hh; rw [hh] at hb; exact absurd hb (by decide)
  have hne_nm : t0.name ≠ "name" := by
    intro hh; rw [hh] at hb; exact absurd hb (by decide)
  have hne_tb : t0.name ≠ "tables" := by
    intro hh; rw [hh] at hb; exact absurd hb (by decide)
  cases hlbl : t0.index_label with
  | none =>
    unfold Database.add_table at h
    rw [hn] at h
    dsimp only at h
    rw [ht] at h
    dsimp only at h
    rw [hlbl] at h
    cases h
  | some lbl =>
    have e := add_table_spec db t0 nm ts lbl hn ht hie hlbl hne_ie
    rw [e, Except.ok.injEq, Prod.mk.injEq] at h
    obtain ⟨h1, h2⟩ := h
    subst h1
    subst h2
    refine ⟨by rw [hlbl], rfl, ?_, ?_, ?_⟩
    · rw [alookup_aupsert_ne _ t0.name "name" _ hne_nm,
          alookup_aupsert_ne _ "tables" "name" _ (by decide), hn]
    · rw [alookup_aupsert_ne _ t0.name "tables" _ hne_tb, alookup_aupsert_self]
    · rw [alookup_aupsert_ne _ t0.name "if_exists" _ hne_ie,
          alookup_aupsert_ne _ "tables" "if_exists" _ (by decide), hie]

theorem genInv_step_existing (ret : List (String × Database))
    (outs : List (String × DBTable)) (c : Nat) (k : String) (t : DBTable)
    (db0 db' : Database) (t2 : DBTable)
    (hInv : GenInv ret outs c)
    (hfind : alookup ret t.db_name = some db0)
    (hadd : db0.add_table { t with database := some db0.oid } = .ok (db', t2))
    (hbt : builtinAttrs.contains t.name = false) :
    GenInv (aupsert ret t.db_name db') (outs ++ [(k, t2)]) c ∧
      t2.db_name = t.db_name := by
  obtain ⟨hkeys, hentries, hoids, houts, hiff⟩ := hInv
  have hmem := alookup_mem _ _ _ hfind
  obtain ⟨⟨hn0, ⟨ts0, ht0⟩, hie0⟩, hoidlt⟩ := hentries (t.db_name, db0) hmem
  obtain ⟨ht2, hoid', hname', htables', hie'⟩ :=
    add_table_ok_char db0 _ db' t2 t.db_name ts0 hadd hn0 ht0 hie0 hbt
  have ht2dbn : t2.db_name = t.db_name := by rw [ht2]
  have htl' : db'.tablesList = ts0 ++ [t2] := tablesList_of_attr _ _ htables'
  have htl0 : db0.tablesList = ts0 := tablesList_of_attr _ _ ht0
  refine ⟨⟨aupsert_keys_nodup _ _ _ hkeys, ?_, ?_, ?_, ?_⟩, ht2dbn⟩
  · intro p hp
    rcases aupsert_mem _ _ _ _ hp with hpe | hpm
    · subst hpe
      exact ⟨⟨hname', ⟨_, htables'⟩, hie'⟩, by rw [hoid']; exact hoidlt⟩
    · exact hentries p hpm
  · rw [aupsert_map_snd_eq _ _ _ db0 (fun d => d.oid) hfind hoid']
    exact hoids
  · intro q hq
    rcases List.mem_append.mp hq with hqo | hqn
    · obtain ⟨dbq, hlq, hdq, hmq⟩ := houts q hqo
      by_cases hd : q.2.db_name = t.db_name
      · rw [hd, hfind] at hlq
        injection hlq with hdbq
        refine ⟨db', ?_, ?_, ?_⟩
        · rw [hd, alookup_aupsert_self]
        · rw [hdq, ← hdbq, hoid']
        · rw [htl']
          exact List.mem_append_left _ (by rw [← htl0, hdbq]; exact hmq)
      · refine ⟨dbq, ?_, hdq, hmq⟩
        rw [alookup_aupsert_ne _ t.db_name q.2.db_name _ (fun hh => hd hh.symm)]
        exact hlq
    · have hq2 : q = (k, t2) := List.mem_singleton.mp hqn
      subst hq2
      refine ⟨db', ?_, ?_, ?_⟩
      · rw [ht2dbn, alookup_aupsert_self]
      · rw [ht2, hoid']
      · rw [htl']
        exact List.mem_append_right _ (List.mem_singleton.mpr rfl)
  · intro d
    by_cases hd : d = t.db_name
    · subst hd
      rw [alookup_aupsert_self]
      simp [List.mem_append, ht2dbn]
    · rw [alookup_aupsert_ne _ t.db_name d _ (fun hh => hd hh.symm), hiff d]
      simp [List.mem_append, List.mem_singleton, ht2dbn, hd]

theorem genInv_step_new (ret : List (String × Database))
    (outs : List (String × DBTable)) (c : Nat) (k : String) (t : DBTable)
    (fld : String) (db' : Database) (t2 : DBTable)
    (hInv : GenInv ret outs c)
    (hfind : alookup ret t.db_name = Option.none)
    (hadd : (Database.init t.db_name fld "replace" c).add_table
      { t with database := some (Database.init t.db_name fld "replace" c).oid }
      = .ok (db', t2))
    (hbt : builtinAttrs.contains t.name = false) :
    GenInv (aupsert ret t.db_name db') (outs ++ [(k, t2)]) (c + 1) ∧
      t2.db_name = t.db_name := by
  obtain ⟨hkeys, hentries, hoids, houts, hiff⟩ := hInv
  obtain ⟨ht2, hoid', hname', htables', hie'⟩ :=
    add_table_ok_char (Database.init t.db_name fld "replace" c) _ db' t2
      t.db_name [] hadd rfl rfl rfl hbt
  have hoidc : db'.oid = c := hoid'
  have ht2dbn : t2.db_name = t.db_name := by rw [ht2]
  have htl' : db'.tablesList = [] ++ [t2] := tablesList_of_attr _ _ htables'
  have hret1 : aupsert ret t.db_name db' = ret ++ [(t.db_name, db')] :=
    aupsert_of_lookup_none _ _ _ hfind
  refine ⟨⟨aupsert_keys_nodup _ _ _ hkeys, ?_, ?_, ?_, ?_⟩, ht2dbn⟩
  · intro p hp
    rcases aupsert_mem _ _ _ _ hp with hpe | hpm
    · subst hpe
      exact ⟨⟨hname', ⟨_, htables'⟩, hie'⟩, by rw [hoidc]; exact Nat.lt_succ_self c⟩
    · obtain ⟨hok, hlt⟩ := hentries p hpm
      exact ⟨hok, Nat.lt_succ_of_lt hlt⟩
  · rw [hret1, List.map_append, List.nodup_append]
    refine ⟨hoids, by simp, ?_⟩
    intro a ha hb
    simp only [List.map_cons, List.map_nil, List.mem_singleton] at hb
    subst hb
    rcases List.mem_map.mp ha with ⟨p, hpm, hpoid⟩
    have hlt := (hentries p hpm).2
    rw [hpoid, hoidc] at hlt
    exact Nat.lt_irrefl c hlt
  · intro q hq
    rcases List.mem_append.mp hq with hqo | hqn
    · obtain ⟨dbq, hlq, hdq, hmq⟩ := houts q hqo
      have hne : q.2.db_name ≠ t.db_name := by
        intro hh; rw [hh, hfind] at hlq; cases hlq
      refine ⟨dbq, ?_, hdq, hmq⟩
      rw [alookup_aupsert_ne _ t.db_name q.2.db_name _ (fun hh => hne hh.symm)]
      exact hlq
    · have hq2 : q = (k, t2) := List.mem_singleton.mp hqn
      subst hq2
      refine ⟨db', ?_, ?_, ?_⟩
      · rw [ht2dbn, alookup_aupsert_self]
      · rw [ht2, hoidc]; rfl
      · rw [htl']
        exact List.mem_append_right _ (List.mem_singleton.mpr rfl)
  · intro d
    by_cases hd : d = t.db_name
    · subst hd
      rw [alookup_aupsert_self]
      simp [List.mem_append, ht2dbn]
    · rw [alookup_aupsert_ne _ t.db_name d _ (fun hh => hd hh.symm), hiff d]
      simp [List.mem_append, List.mem_singleton, ht2dbn, hd]

theorem genLoop_ok : ∀ (pending : List (String × DBTable)) (lastPath : Option String)
    (ret : List (String × Database)) (outs : List (String × DBTable)) (c : Nat)
    (ret' : List (String × Database)) (outs' : List (String × DBTable)) (c' : Nat),
    GenInv ret outs c →
    (∀ p ∈ pending, builtinAttrs.contains p.2.name = false) →
    genLoop lastPath pending ret outs c = .ok (ret', outs', c') →
    GenInv ret' outs' c' ∧
    outs'.map Prod.fst = outs.map Prod.fst ++ pending.map Prod.fst ∧
    outs'.map (fun q => q.2.db_name)
      = outs.map (fun q => q.2.db_name) ++ pending.map (fun p => p.2.db_name) := by
  intro pending
  induction pending with
  | nil =>
    intro lastPath ret outs c ret' outs' c' hInv hb h
    cases h
    exact ⟨hInv, by simp, by simp⟩
  | cons p rest ih =>
    obtain ⟨k, t⟩ := p
    intro lastPath ret outs c ret' outs' c' hInv hb h
    have hbt : builtinAttrs.contains t.name = false := hb (k, t) (List.mem_cons_self _ _)
    have hbrest : ∀ p ∈ rest, builtinAttrs.contains p.2.name = false :=
      fun p hp => hb p (List.mem_cons_of_mem _ hp)
    unfold genLoop at h
    cases hstep : genStep lastPath k t ret outs c with
    | error e => rw [hstep] at h; cases h
    | ok r1 =>
      obtain ⟨ret1, outs1, c1⟩ := r1
      rw [hstep] at h
      dsimp only at h
      unfold genStep at hstep
      cases hfind : alookup ret t.db_name with
      | some db0 =>
        rw [hfind] at hstep
        dsimp only at hstep
        cases hadd : db0.add_table { t with database := some db0.oid } with
        | error e => rw [hadd] at hstep; cases hstep
        | ok r2 =>
          obtain ⟨db', t2⟩ := r2
          rw [hadd] at hstep
          dsimp only at hstep
          cases hstep
          obtain ⟨hInv', ht2dbn⟩ :=
            genInv_step_existing ret outs c k t db0 db' t2
              hInv hfind hadd hbt
          obtain ⟨hI, hk2, hdbn2⟩ := ih lastPath _ _ _ ret' outs' c' hInv' hbrest h
          refine ⟨hI, ?_, ?_⟩
          · rw [hk2]; simp
          · rw [hdbn2]; simp [ht2dbn]
      | none =>
        rw [hfind] at hstep
        cases lastPath with
        | none => dsimp only at hstep; cases hstep
        | some lp =>
          dsimp only at hstep
          cases hadd : (Database.init t.db_name (parentDir lp) "replace" c).add_table
              { t with
                  database :=
                    some (Database.init t.db_name (parentDir lp) "replace" c).oid } with
          | error e => rw [hadd] at hstep; cases hstep
          | ok r2 =>
            obtain ⟨db', t2⟩ := r2
            rw [hadd] at hstep
            dsimp only at hstep
            cases hstep
            obtain ⟨hInv', ht2dbn⟩ :=
              genInv_step_new ret outs c k t (parentDir lp) db' t2
                hInv hfind hadd hbt
            obtain ⟨hI, hk2, hdbn2⟩ := ih (some lp) _ _ _ ret' outs' c' hInv' hbrest h
            refine ⟨hI, ?_, ?_⟩
            · rw [hk2]; simp
            · rw [hdbn2]; simp [ht2dbn]

/-- C3: on a successful run of create_from_dict (with table names avoiding
the Database's built-in attribute names), the returned mapping has one
Database per distinct db_name of the input (keys without duplicates, all
Database instances distinct by identity), every output table's back-reference
is the instance its db_name maps to and the table is a member of that
instance's owned list, and the mapping's domain is exactly the set of input
db_names. -/
theorem C3_generator : ∀ (input : List (String × DBTable))
    (ret : List (String × Database)) (outs : List (String × DBTable)),
    DatabaseGenerator.create_from_dict input = .ok (ret, outs) →
    (∀ p ∈ input, builtinAttrs.contains p.2.name = false) →
    (ret.map Prod.fst).Nodup ∧
    (ret.map (fun p => p.2.oid)).Nodup ∧
    (∀ q ∈ outs, ∃ db, alookup ret q.2.db_name = some db ∧
      q.2.database = some db.oid ∧ q.2 ∈ db.tablesList) ∧
    (∀ d, (alookup ret d).isSome ↔ d ∈ input.map (fun p => p.2.db_name)) ∧
    outs.map Prod.fst = input.map Prod.fst := by
  intro input ret outs h hb
  unfold DatabaseGenerator.create_from_dict at h
  cases hg : genLoop (input.getLast?.map (fun p => p.2.csv_path)) input [] [] 0 with
  | error e => rw [hg] at h; cases h
  | ok r =>
    obtain ⟨ret0, outs0, c0⟩ := r
    rw [hg] at h
    dsimp only at h
    cases h
    have hInv0 : GenInv [] [] 0 := by
      refine ⟨List.nodup_nil, ?_, List.nodup_nil, ?_, ?_⟩
      · intro p hp; simp at hp
      · intro q hq; simp at hq
      · intro d; simp [alookup]
    obtain ⟨hInv', hk, hdbn⟩ :=
      genLoop_ok input _ [] [] 0 ret outs c0 hInv0 hb hg
    refine ⟨hInv'.1, hInv'.2.2.1, hInv'.2.2.2.1, ?_, by simpa using hk⟩
    intro d
    rw [hInv'.2.2.2.2 d, hdbn]
    simp

/-- C3 witness: the concrete two-table school scenario, both tables sharing
db_name "s": one Database, shared back-reference, both registered. -/
theorem C3_witness :
    (genRet.map Prod.fst).Nodup ∧
    (genRet.map (fun p => p.2.oid)).Nodup ∧
    (∀ q ∈ genOuts, ∃ db, alookup genRet q.2.db_name = some db ∧
      q.2.database = some db.oid ∧ q.2 ∈ db.tablesList) ∧
    (∀ d, (alookup genRet d).isSome ↔ d ∈ genInput.map (fun p => p.2.db_name)) ∧
    genOuts.map Prod.fst = genInput.map Prod.fst :=
  C3_generator genInput genRet genOuts (by rfl) (by decide)
